import Mathlib

/-!
Verification of the session state machine and text-parsing logic of the
AI-Tutor application (`tutor_app.py`).

The Python code is shallowly embedded: text is `List Char`, Python string
primitives (`split`, `strip`, negative indexing, `int(...)`, the regular
expression searches actually used) are modelled by executable Lean
functions with the same semantics on the inputs the program handles, and
operations that can raise a Python exception return `Except PyErr`.
-/

/-- Python text is modelled as a list of characters. -/
abbrev Str := List Char

/-- The Python exceptions that the embedded operations can raise. -/
inductive PyErr
  | indexError
  | valueError
  | externalError
deriving DecidableEq, Repr

/-- Python `xs[-1]`: the last element, raising `IndexError` on an empty list. -/
def pyLast {α : Type} (xs : List α) : Except PyErr α :=
  match xs.getLast? with
  | some a => .ok a
  | none => .error .indexError

/-- Python `xs[i]` for `i ≥ 0`: raises `IndexError` when out of bounds. -/
def pyIndex {α : Type} (xs : List α) (i : Nat) : Except PyErr α :=
  match xs.get? i with
  | some a => .ok a
  | none => .error .indexError

/-- The characters Python `str.strip()` removes (ASCII whitespace). -/
def isPySpace (c : Char) : Bool :=
  c = ' ' || c = '\t' || c = '\n' || c = '\r' || c = '\x0b' || c = '\x0c'

/-- Python `s.strip()`: drop leading and trailing whitespace. -/
def pyStrip (s : Str) : Str :=
  ((s.dropWhile isPySpace).reverse.dropWhile isPySpace).reverse

/-- Python `s.split(sep)` for a single-character separator `sep`. -/
def pySplit1 (sep : Char) : Str → List Str
  | [] => [[]]
  | c :: cs =>
    if c = sep then [] :: pySplit1 sep cs
    else
      match pySplit1 sep cs with
      | [] => [[c]]
      | p :: ps => (c :: p) :: ps

/-- Scan for Python `s.split(sep)` with a (nonempty) multi-character
separator: `cur` holds the already-consumed characters of the current piece
in reverse; a piece ends as soon as the consumed text ends with `sep`
(leftmost, non-overlapping occurrences, as in Python). -/
def splitSepAux (sep : Str) (cur : Str) : Str → List Str
  | [] => [cur.reverse]
  | c :: cs =>
    if sep.reverse.isPrefixOf (c :: cur) then
      ((c :: cur).drop sep.length).reverse :: splitSepAux sep [] cs
    else
      splitSepAux sep (c :: cur) cs

/-- Python `s.split(sep)` (nonempty separator). -/
def pySplit (s sep : Str) : List Str :=
  splitSepAux sep [] s

/-- Scan for the leftmost occurrence of the (nonempty) pattern `pat`:
returns `(text before it, text after it)`, as the regular-expression
searches of the program do. -/
def findFirstAux (pat : Str) (cur : Str) : Str → Option (Str × Str)
  | [] => none
  | c :: cs =>
    if pat.reverse.isPrefixOf (c :: cur) then
      some (((c :: cur).drop pat.length).reverse, cs)
    else
      findFirstAux pat (c :: cur) cs

/-- Leftmost occurrence of `pat` in `s` with the surrounding text. -/
def findFirst (pat s : Str) : Option (Str × Str) :=
  findFirstAux pat [] s

/-- Value of a decimal digit. -/
def digitVal (c : Char) : Option Nat :=
  if '0' ≤ c ∧ c ≤ '9' then some (c.toNat - '0'.toNat) else none

/-- Accumulate a nonempty all-digit string into a number. -/
def digitsAux (acc : Nat) : Str → Option Nat
  | [] => some acc
  | c :: cs =>
    match digitVal c with
    | some d => digitsAux (acc * 10 + d) cs
    | none => none

/-- Python `int(s)`: strips whitespace, accepts an optional sign followed by
decimal digits, and raises `ValueError` otherwise. -/
def pyInt (s : Str) : Except PyErr Int :=
  match pyStrip s with
  | [] => .error .valueError
  | '-' :: rest =>
    match rest, digitsAux 0 rest with
    | _ :: _, some n => .ok (-(n : Int))
    | _, _ => .error .valueError
  | '+' :: rest =>
    match rest, digitsAux 0 rest with
    | _ :: _, some n => .ok (n : Int)
    | _, _ => .error .valueError
  | t =>
    match digitsAux 0 t with
    | some n => .ok (n : Int)
    | none => .error .valueError

deriving instance DecidableEq for Except

/-!
Parsers of `tutor_app.py`, embedded from the source.
-/

/-- Embeds `tutor_app.py` lines 215-217: the knowledge-level extraction of
the plan-display stage.  The code takes the last line of the stripped
evaluation text (`.strip().split('\n')[-1]`) and returns the trimmed text
after its last colon (`.split(':')[-1].strip()`). -/
def extract_knowledge_level (evaluation : Str) : Except PyErr Str := do
  let last_line ← pyLast (pySplit1 '\n' (pyStrip evaluation))
  let piece ← pyLast (pySplit1 ':' last_line)
  pure (pyStrip piece)

/-- The test used in counterexamples for whether the evaluation text has a
line beginning with the literal marker, as the specification describes. -/
def has_level_line (evaluation : Str) : Bool :=
  (pySplit1 '\n' evaluation).any fun l => List.isPrefixOf ("Knowledge Level:".data) l

/-- One parsed learning-plan module. -/
structure PyModule where
  title : Str
  description : Str
  searchQuery : Str
deriving DecidableEq, Repr

/-- Embeds `re.search(r"(.*?)\n", seg)` of line 240: the text of `seg` up to
its first line break, when `seg` contains one. -/
def titleOf (seg : Str) : Option Str :=
  (findFirst ("\n".data) seg).map Prod.fst

/-- Embeds `re.search(r"Description: (.*?)\n", seg)` of line 241: the text
between the first `Description: ` marker and the next line break. -/
def descOf (seg : Str) : Option Str :=
  match findFirst ("Description: ".data) seg with
  | none => none
  | some (_, rest) => (findFirst ("\n".data) rest).map Prod.fst

/-- Embeds `re.search(r"Search Query: (.*)", seg, re.DOTALL)` of line 242:
everything after the first `Search Query: ` marker. -/
def queryOf (seg : Str) : Option Str :=
  (findFirst ("Search Query: ".data) seg).map Prod.snd

/-- Embeds lines 240-247: a segment parses to a module only when all three
markers are found; the captured fields are stripped. -/
def parse_module_seg (seg : Str) : Option PyModule :=
  match titleOf seg, descOf seg, queryOf seg with
  | some t, some d, some q => some ⟨pyStrip t, pyStrip d, pyStrip q⟩
  | _, _, _ => none

/-- Embeds lines 237-247: `plan.strip().split('Module: ')[1:]`, with the
segments that lack one of the three markers dropped. -/
def parse_modules (plan : Str) : List PyModule :=
  ((pySplit (pyStrip plan) ("Module: ".data)).drop 1).filterMap parse_module_seg

/-- Embeds line 273: `[ans.strip() for ans in s.split(',')]`. -/
def parse_correct_answers (s : Str) : List Str :=
  (pySplit1 ',' s).map pyStrip

/-- Embeds lines 270-273: split the quiz text on `Correct Answers:`, the
questions text is the stripped part before it, and the comma-separated
correct answers come from the stripped part after it (empty when the marker
is absent). -/
def split_quiz (quiz_text : Str) : Except PyErr (Str × List Str) := do
  let quiz_parts := pySplit quiz_text ("Correct Answers:".data)
  let q0 ← pyIndex quiz_parts 0
  let ca ←
    if quiz_parts.length > 1 then do
      let q1 ← pyIndex quiz_parts 1
      pure (pyStrip q1)
    else
      pure ([] : Str)
  pure (pyStrip q0, parse_correct_answers ca)

/-- Embeds lines 296-298: the grader's score line.  The code takes the last
line of the stripped grader output, splits it on `': '`, takes the part
after the last occurrence, splits that on `'/'`, and converts the first
piece with `int(...)` — which raises `ValueError` when it is not an integer
literal.  The stored total is the literal `3`. -/
def parse_score (evaluation : Str) : Except PyErr (Int × Nat) := do
  let score_line ← pyLast (pySplit1 '\n' (pyStrip evaluation))
  let last_part ← pyLast (pySplit score_line (": ".data))
  let score_parts := pySplit1 '/' last_part
  let s0 ← pyIndex score_parts 0
  let n ← pyInt s0
  pure (n, 3)

/-!
The session state machine of `tutor_app.py` (section 5 of the file).
Streamlit's `st.session_state` holds a fixed set of keys; the embedding
makes each key an optional field.  Each user interaction reruns the script;
the events below are the state-changing interactions, carrying the text the
external model returns for the call made inside the corresponding handler.
-/

/-- The page stage stored in `st.session_state.stage`. -/
inductive Stage
  | topic_submission
  | assessment_answering
  | plan_display
deriving DecidableEq, Repr

/-- The session state: `stage`, `topic`, `questions`, `evaluation`, `plan`,
and the three per-module families `quiz_for_module_i`,
`quiz_feedback_for_module_i`, `quiz_score_for_module_i`. -/
structure Session where
  stage : Stage
  topic : Option Str
  questions : Option Str
  evaluation : Option Str
  plan : Option Str
  quiz : Fin 3 → Option Str
  quiz_feedback : Fin 3 → Option Str
  quiz_score : Fin 3 → Option (Int × Nat)

/-- The state right after `st.session_state.stage = 'topic_submission'` is
initialised (lines 175-176): no other key is set. -/
def initialSession : Session :=
  { stage := .topic_submission
    topic := none
    questions := none
    evaluation := none
    plan := none
    quiz := fun _ => none
    quiz_feedback := fun _ => none
    quiz_score := fun _ => none }

/-- The state-changing user interactions.  Each carries the text produced by
the external model call made in its handler. -/
inductive Event
  | resetTopic
  | submitTopic (input : Str) (modelQuestions : Str)
  | submitAnswers (answers : Str) (modelEvaluation : Str)
  | renderPlan (modelPlan : Str)
  | quizMe (i : Fin 3) (modelQuiz : Str)
  | submitQuiz (i : Fin 3) (modelGrade : Str)
deriving DecidableEq

/-- Embeds the session-state transitions of `tutor_app.py`:
* lines 168-172 (`Start a New Topic`): every key is deleted, then the stage
  is set back to `topic_submission`;
* lines 179-189 (`Start Assessment`): with a non-empty topic, store topic
  and generated questions and advance the stage;
* lines 192-203 (`Submit Answers`): with non-empty answers, store the
  evaluation and advance the stage;
* lines 231-233: on (re)entering the plan-display stage the plan is
  generated only when `'plan' not in st.session_state`;
* lines 263-266 (`Quiz me on Module i+1`): store the generated quiz text
  under `quiz_for_module_i`, overwriting any previous one;
* lines 291-298 (`Submit Quiz`, shown only while `quiz_for_module_i` is
  set): store the grader text as feedback, then parse the score line; when
  `int(...)` raises, the feedback is already stored and the score is left
  unchanged (the exception lands in the stage-level handler of line 306). -/
def step (s : Session) : Event → Session
  | .resetTopic => initialSession
  | .submitTopic input qs =>
    if s.stage = .topic_submission ∧ input ≠ [] then
      { s with topic := some input, questions := some qs, stage := .assessment_answering }
    else s
  | .submitAnswers ans ev =>
    if s.stage = .assessment_answering ∧ ans ≠ [] then
      { s with evaluation := some ev, stage := .plan_display }
    else s
  | .renderPlan p =>
    if s.stage = .plan_display ∧ s.plan = none then
      { s with plan := some p }
    else s
  | .quizMe i q =>
    if s.stage = .plan_display then
      { s with quiz := fun j => if j = i then some q else s.quiz j }
    else s
  | .submitQuiz i g =>
    if s.stage = .plan_display ∧ s.quiz i ≠ none then
      match parse_score g with
      | .ok sc =>
        { s with quiz_feedback := fun j => if j = i then some g else s.quiz_feedback j
                 quiz_score := fun j => if j = i then some sc else s.quiz_score j }
      | .error _ =>
        { s with quiz_feedback := fun j => if j = i then some g else s.quiz_feedback j }
    else s

/-- The states a session can be in during its lifetime. -/
inductive Reach : Session → Prop
  | init : Reach initialSession
  | next {s : Session} (h : Reach s) (e : Event) : Reach (step s e)

/-- Embeds lines 220-229: the total-score loop adds the stored
`(score, possible)` pair of every module that has one. -/
def total_score (s : Session) : Int × Nat :=
  (List.finRange 3).foldl
    (fun acc i =>
      match s.quiz_score i with
      | some sc => (acc.1 + sc.1, acc.2 + sc.2)
      | none => acc)
    (0, 0)

/-- The module indices that have a recorded grade. -/
def graded_count (s : Session) : Nat :=
  ((List.finRange 3).filter fun i => (s.quiz_score i).isSome).length

/-- The recorded per-module grades, in module order. -/
def graded_scores (s : Session) : List (Int × Nat) :=
  (List.finRange 3).filterMap s.quiz_score

/-!
The per-module render loop of the plan-display stage (lines 238-260), with
its surrounding `try`/`except` (lines 210 and 306-307).  Streamlit renders
output as the loop runs, so when the resource lookup of one module throws,
the modules already rendered stay on the page, the loop aborts, and the
remaining modules never render.
-/

/-- One module as rendered on the page: its position in the plan, its
parsed fields and its resource list. -/
structure Rendered where
  idx : Nat
  content : PyModule
  resources : List (Str × Str)
deriving DecidableEq, Repr

/-- Embeds the loop of lines 238-260 under the stage-level `try` of
line 210: segments missing a marker are skipped, each rendered module calls
the resource lookup, and a thrown lookup ends the whole loop with the
exception, keeping what was already rendered. -/
def render_loop (search : Str → Except PyErr (List (Str × Str))) :
    List (Nat × Str) → List Rendered × Option PyErr
  | [] => ([], none)
  | (i, seg) :: rest =>
    match parse_module_seg seg with
    | none => render_loop search rest
    | some m =>
      match search m.searchQuery with
      | .error e => ([], some e)
      | .ok res =>
        let out := render_loop search rest
        (⟨i, m, res⟩ :: out.1, out.2)

/-- Embeds lines 237-260: split the plan into segments and run the render
loop over the enumerated segments. -/
def render_plan_stage (plan : Str) (search : Str → Except PyErr (List (Str × Str))) :
    List Rendered × Option PyErr :=
  render_loop search ((pySplit (pyStrip plan) ("Module: ".data)).drop 1).enum

/-!
The Scoring Engine of the specification.  `tutor_app.py` contains no local
comparison of user selections with correct answers: `evaluate_quiz_answers`
(lines 126-152) sends questions, correct answers and user selections to the
external model and the handler stores whatever score its reply reports.
The spec's `grade` contract is therefore modelled from the spec to compare
against the code's behaviour.
-/

/-- Modelled from the spec: a quiz question of §3 — text, four options, and
the index of the correct option. -/
structure SpecQuizQuestion where
  text : Str
  options : List Str
  correctIndex : Nat
deriving DecidableEq, Repr

/-- Modelled from the spec: the correct option text
`quiz.questions[i].options[correctIndex]`. -/
def specCorrectText (q : SpecQuizQuestion) : Str :=
  q.options.getD q.correctIndex []

/-- Modelled from the spec (§4.6 Scoring Engine): compare each user
selection with the correct option text by exact string equality; an
unanswered question (`none`) matches nothing; the score is the count of
matches. -/
def spec_grade : List SpecQuizQuestion → List (Option Str) → Nat
  | q :: qs, sel :: sels =>
    (if sel = some (specCorrectText q) then 1 else 0) + spec_grade qs sels
  | _, _ => 0

/-- A well-formed module segment, as the plan prompt of lines 69-82
requests: title line, `Description:` line, `Search Query:` tail. -/
def mkSeg (t d q : Str) : Str :=
  t ++ '\n' :: ("Description: ".data ++ (d ++ '\n' :: ("Search Query: ".data ++ q)))

/-- A plan text: a preamble followed by three `Module: ` segments. -/
def mkPlan (pre s0 s1 s2 : Str) : Str :=
  pre ++ ("Module: ".data ++ (s0 ++ ("Module: ".data ++ (s1 ++ ("Module: ".data ++ s2)))))

/-- A concrete mid-session state used as the witness input of several
theorems: the plan is displayed, module 0 has a quiz, a feedback text and a
recorded grade. -/
def planSession : Session :=
  { stage := .plan_display
    topic := some ("Graphs".data)
    questions := some ("Q1?".data)
    evaluation := some ("Fine.\nKnowledge Level: Beginner".data)
    plan := some ("Module: T\nDescription: D\nSearch Query: Q".data)
    quiz := fun j => if j = 0 then some ("quiz text".data) else none
    quiz_feedback := fun j => if j = 0 then some ("old feedback".data) else none
    quiz_score := fun j => if j = 0 then some (2, 3) else none }

/-!
Lemmas about the embedded Python string primitives.
-/

theorem pyLast_eq_ok {α : Type} {xs : List α} {a : α} (h : xs.getLast? = some a) :
    pyLast xs = .ok a := by
  simp [pyLast, h]

theorem pyLast_isOk {α : Type} (xs : List α) (h : xs ≠ []) :
    ∃ a, pyLast xs = .ok a := by
  rcases hl : xs.getLast? with _ | a
  · rw [List.getLast?_eq_none_iff] at hl
    exact absurd hl h
  · exact ⟨a, pyLast_eq_ok hl⟩

theorem pySplit1_ne_nil (sep : Char) (s : Str) : pySplit1 sep s ≠ [] := by
  cases s with
  | nil => simp [pySplit1]
  | cons c cs =>
    simp only [pySplit1]
    split
    · simp
    · split <;> simp

theorem pySplit1_no_sep (sep : Char) (s : Str) (h : sep ∉ s) : pySplit1 sep s = [s] := by
  induction s with
  | nil => rfl
  | cons c cs ih =>
    have hc : ¬ c = sep := by rintro rfl; exact h (List.mem_cons_self c cs)
    have hcs : sep ∉ cs := fun hh => h (List.mem_cons_of_mem c hh)
    simp [pySplit1, hc, ih hcs]

theorem pySplit1_length (sep : Char) (s : Str) :
    (pySplit1 sep s).length = s.count sep + 1 := by
  induction s with
  | nil => simp [pySplit1]
  | cons c cs ih =>
    by_cases hc : c = sep
    · subst hc
      simp [pySplit1, List.count_cons_self, ih]
    · rcases hp : pySplit1 sep cs with _ | ⟨p, ps⟩
      · exact absurd hp (pySplit1_ne_nil sep cs)
      · have hlen := ih
        rw [hp] at hlen
        simp only [pySplit1, if_neg hc, hp]
        simp only [List.length_cons] at hlen ⊢
        rw [List.count_cons_of_ne (fun hh => hc hh.symm)]
        omega

theorem getLast?_cons_of_ne_nil {α : Type} (a : α) {l : List α} (h : l ≠ []) :
    (a :: l).getLast? = l.getLast? := by
  cases l with
  | nil => exact absurd rfl h
  | cons b t => exact List.getLast?_cons_cons

theorem pySplit1_getLast_append (sep : Char) (a b : Str) (hb : sep ∉ b) :
    (pySplit1 sep (a ++ sep :: b)).getLast? = some b := by
  induction a with
  | nil =>
    simp only [List.nil_append, pySplit1, if_true]
    rw [getLast?_cons_of_ne_nil _ (pySplit1_ne_nil sep b), pySplit1_no_sep sep b hb]
    rfl
  | cons c a' ih =>
    by_cases hc : c = sep
    · show (pySplit1 sep (c :: (a' ++ sep :: b))).getLast? = some b
      simp only [pySplit1]
      rw [if_pos hc, getLast?_cons_of_ne_nil _ (pySplit1_ne_nil _ _)]
      exact ih
    · rcases hp : pySplit1 sep (a' ++ sep :: b) with _ | ⟨p, ps⟩
      · exact absurd hp (pySplit1_ne_nil _ _)
      · have hps : ps ≠ [] := by
          have hlen := pySplit1_length sep (a' ++ sep :: b)
          rw [hp] at hlen
          have hcount : 0 < (a' ++ sep :: b).count sep :=
            List.count_pos_iff.mpr (List.mem_append_right _ (List.mem_cons_self _ _))
          simp only [List.length_cons] at hlen
          intro hh
          rw [hh] at hlen
          simp only [List.length_nil] at hlen
          omega
        have hib := ih
        rw [hp, getLast?_cons_of_ne_nil p hps] at hib
        show (pySplit1 sep (c :: (a' ++ sep :: b))).getLast? = some b
        simp only [pySplit1]
        rw [if_neg hc, hp]
        rw [getLast?_cons_of_ne_nil _ hps]
        exact hib

theorem isPrefixOf_append_self (l t : Str) : l.isPrefixOf (l ++ t) = true := by
  induction l with
  | nil => simp [List.isPrefixOf]
  | cons c l ih => simp [List.isPrefixOf, ih]

theorem findFirstAux_none_split (sep : Str) :
    ∀ (rest cur : Str), findFirstAux sep cur rest = none →
      splitSepAux sep cur rest = [cur.reverse ++ rest] := by
  intro rest
  induction rest with
  | nil =>
    intro cur _
    simp [splitSepAux]
  | cons c cs ih =>
    intro cur h
    by_cases hp : sep.reverse.isPrefixOf (c :: cur) = true
    · simp only [findFirstAux, if_pos hp] at h
      exact Option.noConfusion h
    · simp only [findFirstAux, if_neg hp] at h
      simp only [splitSepAux, if_neg hp]
      rw [ih (c :: cur) h]
      simp

theorem findFirstAux_boundary (sep : Str) :
    ∀ (post pre cur b : Str), sep = pre ++ post → post ≠ [] →
      findFirstAux sep (pre.reverse ++ cur) post.dropLast = none →
      findFirstAux sep (pre.reverse ++ cur) (post ++ b) = some (cur.reverse, b) := by
  intro post
  induction post with
  | nil =>
    intro pre cur b _ h2 _
    exact absurd rfl h2
  | cons x post' ih =>
    intro pre cur b hsep _ htrunc
    cases post' with
    | nil =>
      have hrev : sep.reverse = x :: pre.reverse := by rw [hsep]; simp
      have hshape : x :: (pre.reverse ++ cur) = sep.reverse ++ cur := by
        rw [hrev]
        rfl
      show findFirstAux sep (pre.reverse ++ cur) ([x] ++ b) = some (cur.reverse, b)
      simp only [List.singleton_append, findFirstAux]
      rw [if_pos (by rw [hshape]; exact isPrefixOf_append_self sep.reverse cur)]
      rw [hshape, show sep.length = sep.reverse.length by simp, List.drop_left]
      simp
    | cons y post'' =>
      rw [List.dropLast_cons₂] at htrunc
      have hx : ¬ sep.reverse.isPrefixOf (x :: (pre.reverse ++ cur)) = true := by
        intro hfire
        simp only [findFirstAux, if_pos hfire] at htrunc
        exact Option.noConfusion htrunc
      simp only [findFirstAux] at htrunc
      rw [if_neg hx] at htrunc
      show findFirstAux sep (pre.reverse ++ cur) ((x :: y :: post'') ++ b) = some (cur.reverse, b)
      rw [List.cons_append]
      simp only [findFirstAux]
      rw [if_neg hx]
      have hcur : x :: (pre.reverse ++ cur) = (pre ++ [x]).reverse ++ cur := by simp
      rw [hcur] at htrunc ⊢
      exact ih (pre ++ [x]) cur b (by rw [hsep]; simp) (by simp) htrunc

theorem splitSepAux_boundary (sep : Str) :
    ∀ (post pre cur b : Str), sep = pre ++ post → post ≠ [] →
      findFirstAux sep (pre.reverse ++ cur) post.dropLast = none →
      splitSepAux sep (pre.reverse ++ cur) (post ++ b) = cur.reverse :: splitSepAux sep [] b := by
  intro post
  induction post with
  | nil =>
    intro pre cur b _ h2 _
    exact absurd rfl h2
  | cons x post' ih =>
    intro pre cur b hsep _ htrunc
    cases post' with
    | nil =>
      have hrev : sep.reverse = x :: pre.reverse := by rw [hsep]; simp
      have hshape : x :: (pre.reverse ++ cur) = sep.reverse ++ cur := by
        rw [hrev]
        rfl
      show splitSepAux sep (pre.reverse ++ cur) ([x] ++ b) = cur.reverse :: splitSepAux sep [] b
      simp only [List.singleton_append, splitSepAux]
      rw [if_pos (by rw [hshape]; exact isPrefixOf_append_self sep.reverse cur)]
      rw [hshape, show sep.length = sep.reverse.length by simp, List.drop_left]
      simp
    | cons y post'' =>
      rw [List.dropLast_cons₂] at htrunc
      have hx : ¬ sep.reverse.isPrefixOf (x :: (pre.reverse ++ cur)) = true := by
        intro hfire
        simp only [findFirstAux, if_pos hfire] at htrunc
        exact Option.noConfusion htrunc
      simp only [findFirstAux] at htrunc
      rw [if_neg hx] at htrunc
      show splitSepAux sep (pre.reverse ++ cur) ((x :: y :: post'') ++ b) =
        cur.reverse :: splitSepAux sep [] b
      rw [List.cons_append]
      simp only [splitSepAux]
      rw [if_neg hx]
      have hcur : x :: (pre.reverse ++ cur) = (pre ++ [x]).reverse ++ cur := by simp
      rw [hcur] at htrunc ⊢
      exact ih (pre ++ [x]) cur b (by rw [hsep]; simp) (by simp) htrunc

theorem findFirstAux_append (sep : Str) (hne : sep ≠ []) :
    ∀ (a cur b : Str),
      findFirstAux sep cur (a ++ sep.dropLast) = none →
      findFirstAux sep cur (a ++ (sep ++ b)) = some (cur.reverse ++ a, b) := by
  intro a
  induction a with
  | nil =>
    intro cur b htrunc
    have hb := findFirstAux_boundary sep sep [] cur b (by simp) hne
      (by simpa using htrunc)
    simpa using hb
  | cons c a' ih =>
    intro cur b htrunc
    rw [List.cons_append] at htrunc
    have hx : ¬ sep.reverse.isPrefixOf (c :: cur) = true := by
      intro hfire
      simp only [findFirstAux, if_pos hfire] at htrunc
      exact Option.noConfusion htrunc
    simp only [findFirstAux] at htrunc
    rw [if_neg hx] at htrunc
    rw [List.cons_append]
    simp only [findFirstAux]
    rw [if_neg hx]
    rw [ih (c :: cur) b htrunc]
    simp

theorem splitSepAux_append (sep : Str) (hne : sep ≠ []) :
    ∀ (a cur b : Str),
      findFirstAux sep cur (a ++ sep.dropLast) = none →
      splitSepAux sep cur (a ++ (sep ++ b)) = (cur.reverse ++ a) :: splitSepAux sep [] b := by
  intro a
  induction a with
  | nil =>
    intro cur b htrunc
    have hb := splitSepAux_boundary sep sep [] cur b (by simp) hne
      (by simpa using htrunc)
    simpa using hb
  | cons c a' ih =>
    intro cur b htrunc
    rw [List.cons_append] at htrunc
    have hx : ¬ sep.reverse.isPrefixOf (c :: cur) = true := by
      intro hfire
      simp only [findFirstAux, if_pos hfire] at htrunc
      exact Option.noConfusion htrunc
    simp only [findFirstAux] at htrunc
    rw [if_neg hx] at htrunc
    rw [List.cons_append]
    simp only [splitSepAux]
    rw [if_neg hx]
    rw [ih (c :: cur) b htrunc]
    simp

theorem pySplit_no_occurrence (sep s : Str) (h : findFirst sep s = none) :
    pySplit s sep = [s] := by
  simpa [pySplit] using findFirstAux_none_split sep s [] h

theorem pySplit_append (sep a b : Str) (hne : sep ≠ [])
    (h : findFirst sep (a ++ sep.dropLast) = none) :
    pySplit (a ++ (sep ++ b)) sep = a :: pySplit b sep := by
  have := splitSepAux_append sep hne a [] b h
  simpa [pySplit] using this

theorem findFirst_append (sep a b : Str) (hne : sep ≠ [])
    (h : findFirst sep (a ++ sep.dropLast) = none) :
    findFirst sep (a ++ (sep ++ b)) = some (a, b) := by
  have := findFirstAux_append sep hne a [] b h
  simpa [findFirst] using this

theorem dropWhile_of_head_false {p : Char → Bool} {s : Str} (h : s ≠ [])
    (hh : p (s.headD 'x') = false) : List.dropWhile p s = s := by
  cases s with
  | nil => exact absurd rfl h
  | cons c cs =>
    simp only [List.headD] at hh
    rw [List.dropWhile_cons, if_neg (by simp [hh])]

theorem reverse_headD_eq_getLastD (s : Str) (d : Char) :
    s.reverse.headD d = s.getLastD d := by
  rw [List.headD_eq_head?, List.head?_reverse, List.getLastD_eq_getLast?]

theorem dropTrail_eq_self {s : Str} (h : s ≠ [])
    (hl : isPySpace (s.getLastD 'x') = false) :
    (s.reverse.dropWhile isPySpace).reverse = s := by
  have hrev : s.reverse ≠ [] := by simpa using h
  rw [dropWhile_of_head_false hrev (by rw [reverse_headD_eq_getLastD]; exact hl)]
  exact List.reverse_reverse s

theorem pyStrip_eq_self {s : Str} (h : s ≠ [])
    (hh : isPySpace (s.headD 'x') = false)
    (hl : isPySpace (s.getLastD 'x') = false) : pyStrip s = s := by
  rw [pyStrip, dropWhile_of_head_false h hh, dropTrail_eq_self h hl]

theorem pyStrip_cons_space {c : Char} (s : Str) (hc : isPySpace c = true) :
    pyStrip (c :: s) = pyStrip s := by
  rw [pyStrip, pyStrip, List.dropWhile_cons, if_pos hc]

theorem getLastD_append_cons (a : Str) (c : Char) {b : Str} (h : b ≠ []) (d : Char) :
    (a ++ c :: b).getLastD d = b.getLastD d := by
  rw [List.getLastD_eq_getLast?, List.getLastD_eq_getLast?, List.getLast?_append,
    getLast?_cons_of_ne_nil c h]
  rcases hl : b.getLast? with _ | x
  · rw [List.getLast?_eq_none_iff] at hl
    exact absurd hl h
  · rfl

theorem strip_last_line (pre last : Str) (h : last ≠ [])
    (hh : isPySpace (last.headD 'x') = false)
    (hl : isPySpace (last.getLastD 'x') = false)
    (hn : '\n' ∉ last) :
    (pySplit1 '\n' (pyStrip (pre ++ '\n' :: last))).getLast? = some last := by
  rw [pyStrip, List.dropWhile_append]
  by_cases he : (List.dropWhile isPySpace pre).isEmpty
  · rw [if_pos he, List.dropWhile_cons, if_pos (by rfl : isPySpace '\n' = true),
      dropWhile_of_head_false h hh, dropTrail_eq_self h hl,
      pySplit1_no_sep '\n' last hn]
    rfl
  · rw [if_neg he]
    have hne : List.dropWhile isPySpace pre ++ '\n' :: last ≠ [] := by simp
    rw [dropTrail_eq_self hne
      (by rw [getLastD_append_cons _ _ h]; exact hl)]
    exact pySplit1_getLast_append '\n' _ last hn

theorem extract_eq_of_lines {ev L R : Str}
    (h1 : (pySplit1 '\n' (pyStrip ev)).getLast? = some L)
    (h2 : (pySplit1 ':' L).getLast? = some R) :
    extract_knowledge_level ev = .ok (pyStrip R) := by
  simp [extract_knowledge_level, pyLast_eq_ok h1, pyLast_eq_ok h2, Bind.bind, Except.bind,
    Functor.map, Except.map, Pure.pure, Except.pure]

theorem splitSepAux_ne_nil (sep : Str) :
    ∀ (rest cur : Str), splitSepAux sep cur rest ≠ [] := by
  intro rest
  induction rest with
  | nil =>
    intro cur
    simp [splitSepAux]
  | cons c cs ih =>
    intro cur
    by_cases hp : sep.reverse.isPrefixOf (c :: cur) = true
    · simp only [splitSepAux, if_pos hp]
      simp
    · simp only [splitSepAux, if_neg hp]
      exact ih (c :: cur)

theorem pySplit_ne_nil (s sep : Str) : pySplit s sep ≠ [] :=
  splitSepAux_ne_nil sep s []

theorem pyIndex_ok {α : Type} (xs : List α) (i : Nat) (h : i < xs.length) :
    ∃ a, pyIndex xs i = .ok a := by
  rcases hg : xs[i]? with _ | a
  · rw [List.getElem?_eq_none_iff] at hg
    omega
  · exact ⟨a, by simp [pyIndex, hg]⟩

theorem pyInt_cases (s : Str) : (∃ n, pyInt s = .ok n) ∨ pyInt s = .error .valueError := by
  rw [pyInt]
  split
  · right
    rfl
  · split
    · left
      exact ⟨_, rfl⟩
    · right
      rfl
  · split
    · left
      exact ⟨_, rfl⟩
    · right
      rfl
  · split
    · left
      exact ⟨_, rfl⟩
    · right
      rfl

theorem extract_knowledge_level_ok (ev : Str) : ∃ r, extract_knowledge_level ev = .ok r := by
  obtain ⟨L, hL⟩ := pyLast_isOk _ (pySplit1_ne_nil '\n' (pyStrip ev))
  obtain ⟨R, hR⟩ := pyLast_isOk _ (pySplit1_ne_nil ':' L)
  exact ⟨pyStrip R, by simp [extract_knowledge_level, hL, hR, Bind.bind, Except.bind,
    Functor.map, Except.map, Pure.pure, Except.pure]⟩

theorem split_quiz_ok (qt : Str) : ∃ r, split_quiz qt = .ok r := by
  have hne := pySplit_ne_nil qt ("Correct Answers:".data)
  obtain ⟨q0, h0⟩ := pyIndex_ok (pySplit qt ("Correct Answers:".data)) 0
    (by cases h : pySplit qt ("Correct Answers:".data) with
        | nil => exact absurd h hne
        | cons a l => simp [h])
  by_cases hlen : (pySplit qt ("Correct Answers:".data)).length > 1
  · obtain ⟨q1, h1⟩ := pyIndex_ok (pySplit qt ("Correct Answers:".data)) 1 hlen
    exact ⟨(pyStrip q0, parse_correct_answers (pyStrip q1)), by
      simp [split_quiz, h0, h1, if_pos hlen, Bind.bind, Except.bind,
        Functor.map, Except.map, Pure.pure, Except.pure]⟩
  · exact ⟨(pyStrip q0, parse_correct_answers []), by
      simp [split_quiz, h0, if_neg hlen, Bind.bind, Except.bind,
        Functor.map, Except.map, Pure.pure, Except.pure]⟩

theorem parse_score_ok_or (g : Str) :
    (∃ r, parse_score g = .ok r) ∨ parse_score g = .error .valueError := by
  obtain ⟨L, hL⟩ := pyLast_isOk _ (pySplit1_ne_nil '\n' (pyStrip g))
  obtain ⟨P, hP⟩ := pyLast_isOk _ (pySplit_ne_nil L (": ".data))
  have hne := pySplit1_ne_nil '/' P
  obtain ⟨S0, hS0⟩ := pyIndex_ok (pySplit1 '/' P) 0
    (by cases h : pySplit1 '/' P with
        | nil => exact absurd h hne
        | cons a l => simp [h])
  rcases pyInt_cases S0 with ⟨n, hn⟩ | hn
  · exact .inl ⟨(n, 3), by simp [parse_score, hL, hP, hS0, hn, Bind.bind, Except.bind,
      Functor.map, Except.map, Pure.pure, Except.pure]⟩
  · exact .inr (by simp [parse_score, hL, hP, hS0, hn, Bind.bind, Except.bind,
      Functor.map, Except.map, Pure.pure, Except.pure])

theorem parse_score_total {g : Str} {sc : Int × Nat} (h : parse_score g = .ok sc) :
    sc.2 = 3 := by
  simp only [parse_score, Bind.bind, Except.bind, Pure.pure, Except.pure] at h
  split at h
  · exact Except.noConfusion h
  split at h
  · exact Except.noConfusion h
  split at h
  · exact Except.noConfusion h
  split at h
  · exact Except.noConfusion h
  injection h with h2
  rw [← h2]

/-- C1: counterexample.  The evaluation text `Knowledge Level: Advanced`
followed by the trailing line `Good luck!` contains a line with the literal
marker, yet the extractor returns `Good luck!` — the trimmed text after the
last colon of the LAST line — and not `Advanced`: the code does not scan
for the marker line, it reads the last line only (lines 215-216). -/
theorem c1_counterexample :
    has_level_line ("Knowledge Level: Advanced\nGood luck!".data) = true ∧
    extract_knowledge_level ("Knowledge Level: Advanced\nGood luck!".data) =
      .ok ("Good luck!".data) ∧
    ("Good luck!".data : Str) ≠ "Advanced".data :=
  ⟨rfl, rfl, by decide⟩

/-- C1 (amended): the extractor reads only the last line: for every
evaluation text whose LAST line is `Knowledge Level: <lvl>` — with `lvl`
nonempty, trimmed, and free of line breaks and colons — it returns exactly
`lvl`; a line appearing after the marker line changes the result (see the
counterexample). -/
theorem c1_level_extractor_last_line (pre lvl : Str) (h : lvl ≠ [])
    (hn : '\n' ∉ lvl) (hc : ':' ∉ lvl)
    (hh : isPySpace (lvl.headD 'x') = false)
    (hl : isPySpace (lvl.getLastD 'x') = false) :
    extract_knowledge_level (pre ++ '\n' :: ("Knowledge Level: ".data ++ lvl)) =
      .ok lvl := by
  have hKL : ("Knowledge Level: ".data ++ lvl) =
      "Knowledge Level".data ++ ':' :: (' ' :: lvl) := rfl
  have hlast_ne : ("Knowledge Level: ".data ++ lvl) ≠ [] := by simp
  have hlast_head : isPySpace (("Knowledge Level: ".data ++ lvl).headD 'x') = false := rfl
  have hlast_last : isPySpace (("Knowledge Level: ".data ++ lvl).getLastD 'x') = false := by
    have : ("Knowledge Level: ".data ++ lvl).getLastD 'x' = lvl.getLastD 'x' := by
      rw [hKL, getLastD_append_cons _ _ (by simp : (' ' :: lvl) ≠ [])]
      have h2 : (' ' :: lvl) = [] ++ ' ' :: lvl := rfl
      rw [h2, getLastD_append_cons [] ' ' h]
    rw [this]
    exact hl
  have hlast_nl : '\n' ∉ ("Knowledge Level: ".data ++ lvl) := by
    intro hmem
    rcases List.mem_append.mp hmem with h1 | h1
    · exact absurd h1 (by decide)
    · exact hn h1
  have h1 := strip_last_line pre _ hlast_ne hlast_head hlast_last hlast_nl
  have h2 : (pySplit1 ':' ("Knowledge Level: ".data ++ lvl)).getLast? = some (' ' :: lvl) := by
    rw [hKL]
    exact pySplit1_getLast_append ':' _ _ (by
      intro hmem
      rcases List.mem_cons.mp hmem with h1 | h1
      · exact absurd h1 (by decide)
      · exact hc h1)
  have hres := extract_eq_of_lines h1 h2
  rw [hres, pyStrip_cons_space lvl (by rfl), pyStrip_eq_self h hh hl]

/-- C1: witness for the amended theorem at a concrete input. -/
theorem c1_witness :
    extract_knowledge_level
      ("Good feedback overall.".data ++ '\n' :: ("Knowledge Level: ".data ++ "Advanced".data)) =
      .ok ("Advanced".data) :=
  c1_level_extractor_last_line ("Good feedback overall.".data) ("Advanced".data)
    (by decide) (by decide) (by decide) (by decide) (by decide)

/-- C2: counterexample.  The evaluation text `You answered nothing.` has no
`Knowledge Level:` line, yet the extractor does not fall back to
`Beginner`: it returns the whole trimmed last line. -/
theorem c2_counterexample :
    has_level_line ("You answered nothing.".data) = false ∧
    extract_knowledge_level ("You answered nothing.".data) =
      .ok ("You answered nothing.".data) ∧
    ("You answered nothing.".data : Str) ≠ "Beginner".data :=
  ⟨rfl, rfl, by decide⟩

/-- C2 (amended): on an evaluation text with no `Knowledge Level:` line the
extractor still returns the trimmed text after the last colon of the last
line — for a colon-free last line, the whole trimmed last line — and not a
`Beginner` default. -/
theorem c2_level_extractor_no_default (pre last : Str) (h : last ≠ [])
    (_hmarker : has_level_line (pre ++ '\n' :: last) = false)
    (hn : '\n' ∉ last) (hc : ':' ∉ last)
    (hh : isPySpace (last.headD 'x') = false)
    (hl : isPySpace (last.getLastD 'x') = false) :
    extract_knowledge_level (pre ++ '\n' :: last) = .ok last := by
  have h1 := strip_last_line pre last h hh hl hn
  have h2 : (pySplit1 ':' last).getLast? = some last := by
    rw [pySplit1_no_sep ':' last hc]
    rfl
  have hres := extract_eq_of_lines h1 h2
  rw [hres, pyStrip_eq_self h hh hl]

/-- C2: witness for the amended theorem at a concrete input. -/
theorem c2_witness :
    extract_knowledge_level ("Nice try".data ++ '\n' :: ("Keep practicing".data)) =
      .ok ("Keep practicing".data) :=
  c2_level_extractor_no_default ("Nice try".data) ("Keep practicing".data)
    (by decide) (by decide) (by decide) (by decide) (by decide) (by decide)

/-- C10: counterexample.  The score-line extraction is not total: on the
grader text `Great job!` (no `Score: n/3` trailer) the `int(...)` of
line 298 raises `ValueError` — the exception escapes the parsing code and
is caught only by the stage-level handler of line 306, which aborts the
stage render instead of producing a default result. -/
theorem c10_counterexample :
    parse_score ("Great job!".data) = .error .valueError :=
  rfl

/-- C10 (amended): the knowledge-level extraction, the quiz-text splitting
and the correct-answers extraction never raise on any input (the
`[-1]`/`[0]`/`[1]` indexings are always in range because Python `split`
always returns at least one piece); the score-line extraction either
succeeds or raises exactly `ValueError` from `int(...)` — it is the one
parser step that can raise. -/
theorem c10_parsers_total :
    (∀ ev : Str, ∃ r, extract_knowledge_level ev = .ok r) ∧
    (∀ qt : Str, ∃ r, split_quiz qt = .ok r) ∧
    (∀ s : Str, (parse_correct_answers s).length = s.count ',' + 1) ∧
    (∀ g : Str, (∃ r, parse_score g = .ok r) ∨ parse_score g = .error .valueError) :=
  ⟨extract_knowledge_level_ok, split_quiz_ok,
    fun s => by simp [parse_correct_answers, pySplit1_length],
    parse_score_ok_or⟩

theorem parse_module_seg_mkSeg (t d q : Str)
    (ht : findFirst ("\n".data) (t ++ ("\n".data).dropLast) = none)
    (hd : findFirst ("\n".data) (d ++ ("\n".data).dropLast) = none)
    (hD : findFirst ("Description: ".data)
      ((t ++ "\n".data) ++ ("Description: ".data).dropLast) = none)
    (hQ : findFirst ("Search Query: ".data)
      ((t ++ '\n' :: ("Description: ".data ++ (d ++ "\n".data))) ++
        ("Search Query: ".data).dropLast) = none)
    (hst : pyStrip t = t) (hsd : pyStrip d = d) (hsq : pyStrip q = q) :
    parse_module_seg (mkSeg t d q) = some ⟨t, d, q⟩ := by
  have e1 : mkSeg t d q =
      t ++ ("\n".data ++ ("Description: ".data ++ (d ++ '\n' :: ("Search Query: ".data ++ q)))) :=
    rfl
  have htitle : titleOf (mkSeg t d q) = some t := by
    rw [titleOf, e1, findFirst_append _ _ _ (by decide) ht]
    rfl
  have e2 : mkSeg t d q =
      (t ++ "\n".data) ++
        ("Description: ".data ++ (d ++ ("\n".data ++ ("Search Query: ".data ++ q)))) := by
    simp [mkSeg, show ("\n".data : Str) = ['\n'] from rfl, List.append_assoc]
  have hfD : findFirst ("Description: ".data) (mkSeg t d q) =
      some (t ++ "\n".data, d ++ ("\n".data ++ ("Search Query: ".data ++ q))) := by
    rw [e2]
    exact findFirst_append _ _ _ (by decide) hD
  have hdesc : descOf (mkSeg t d q) = some d := by
    simp only [descOf, hfD]
    rw [findFirst_append _ _ _ (by decide) hd]
    rfl
  have e3 : mkSeg t d q =
      (t ++ '\n' :: ("Description: ".data ++ (d ++ "\n".data))) ++
        ("Search Query: ".data ++ q) := by
    simp [mkSeg, show ("\n".data : Str) = ['\n'] from rfl, List.append_assoc]
  have hquery : queryOf (mkSeg t d q) = some q := by
    rw [queryOf, e3, findFirst_append _ _ _ (by decide) hQ]
    rfl
  simp only [parse_module_seg, htitle, hdesc, hquery, hst, hsd, hsq]

theorem parse_module_seg_no_desc {seg : Str}
    (hbad : findFirst ("Description: ".data) seg = none) :
    parse_module_seg seg = none := by
  have hdn : descOf seg = none := by rw [descOf, hbad]
  rw [parse_module_seg, hdn]
  rcases titleOf seg with _ | t <;> rcases queryOf seg with _ | q <;> rfl

/-- C3: the module-plan parser splits the (stripped) plan text on the
literal delimiter `Module: `, discards the preamble before the first
delimiter, and extracts from each segment the title (up to the first line
break), the description (after `Description: ` up to the next line break)
and the search query (after `Search Query: ` to the end of the segment); a
plan of three well-formed segments parses to exactly those three modules in
source order, and replacing the middle segment by one that lacks the
`Description: ` marker silently drops it, leaving the other two modules.
The hypotheses state well-formedness: the plan text is already stripped,
no field contains a stray delimiter or marker, titles and descriptions are
single-line, and the fields are trimmed. -/
theorem c3_module_plan_extraction
    (pre t0 d0 q0 t1 d1 q1 t2 d2 q2 bad : Str)
    (hplan1 : pyStrip (mkPlan pre (mkSeg t0 d0 q0) (mkSeg t1 d1 q1) (mkSeg t2 d2 q2)) =
      mkPlan pre (mkSeg t0 d0 q0) (mkSeg t1 d1 q1) (mkSeg t2 d2 q2))
    (hplan2 : pyStrip (mkPlan pre (mkSeg t0 d0 q0) bad (mkSeg t2 d2 q2)) =
      mkPlan pre (mkSeg t0 d0 q0) bad (mkSeg t2 d2 q2))
    (hm0 : findFirst ("Module: ".data) (pre ++ ("Module: ".data).dropLast) = none)
    (hm1 : findFirst ("Module: ".data) (mkSeg t0 d0 q0 ++ ("Module: ".data).dropLast) = none)
    (hm2 : findFirst ("Module: ".data) (mkSeg t1 d1 q1 ++ ("Module: ".data).dropLast) = none)
    (hmb : findFirst ("Module: ".data) (bad ++ ("Module: ".data).dropLast) = none)
    (hm3 : findFirst ("Module: ".data) (mkSeg t2 d2 q2) = none)
    (hseg0 : findFirst ("\n".data) (t0 ++ ("\n".data).dropLast) = none ∧
      findFirst ("\n".data) (d0 ++ ("\n".data).dropLast) = none ∧
      findFirst ("Description: ".data)
        ((t0 ++ "\n".data) ++ ("Description: ".data).dropLast) = none ∧
      findFirst ("Search Query: ".data)
        ((t0 ++ '\n' :: ("Description: ".data ++ (d0 ++ "\n".data))) ++
          ("Search Query: ".data).dropLast) = none ∧
      pyStrip t0 = t0 ∧ pyStrip d0 = d0 ∧ pyStrip q0 = q0)
    (hseg1 : findFirst ("\n".data) (t1 ++ ("\n".data).dropLast) = none ∧
      findFirst ("\n".data) (d1 ++ ("\n".data).dropLast) = none ∧
      findFirst ("Description: ".data)
        ((t1 ++ "\n".data) ++ ("Description: ".data).dropLast) = none ∧
      findFirst ("Search Query: ".data)
        ((t1 ++ '\n' :: ("Description: ".data ++ (d1 ++ "\n".data))) ++
          ("Search Query: ".data).dropLast) = none ∧
      pyStrip t1 = t1 ∧ pyStrip d1 = d1 ∧ pyStrip q1 = q1)
    (hseg2 : findFirst ("\n".data) (t2 ++ ("\n".data).dropLast) = none ∧
      findFirst ("\n".data) (d2 ++ ("\n".data).dropLast) = none ∧
      findFirst ("Description: ".data)
        ((t2 ++ "\n".data) ++ ("Description: ".data).dropLast) = none ∧
      findFirst ("Search Query: ".data)
        ((t2 ++ '\n' :: ("Description: ".data ++ (d2 ++ "\n".data))) ++
          ("Search Query: ".data).dropLast) = none ∧
      pyStrip t2 = t2 ∧ pyStrip d2 = d2 ∧ pyStrip q2 = q2)
    (hbad : findFirst ("Description: ".data) bad = none) :
    parse_modules (mkPlan pre (mkSeg t0 d0 q0) (mkSeg t1 d1 q1) (mkSeg t2 d2 q2)) =
      [⟨t0, d0, q0⟩, ⟨t1, d1, q1⟩, ⟨t2, d2, q2⟩] ∧
    parse_modules (mkPlan pre (mkSeg t0 d0 q0) bad (mkSeg t2 d2 q2)) =
      [⟨t0, d0, q0⟩, ⟨t2, d2, q2⟩] := by
  obtain ⟨ht0, hd0, hD0, hQ0, hst0, hsd0, hsq0⟩ := hseg0
  obtain ⟨ht1, hd1, hD1, hQ1, hst1, hsd1, hsq1⟩ := hseg1
  obtain ⟨ht2, hd2, hD2, hQ2, hst2, hsd2, hsq2⟩ := hseg2
  have hs0 := parse_module_seg_mkSeg t0 d0 q0 ht0 hd0 hD0 hQ0 hst0 hsd0 hsq0
  have hs1 := parse_module_seg_mkSeg t1 d1 q1 ht1 hd1 hD1 hQ1 hst1 hsd1 hsq1
  have hs2 := parse_module_seg_mkSeg t2 d2 q2 ht2 hd2 hD2 hQ2 hst2 hsd2 hsq2
  have hsb := parse_module_seg_no_desc hbad
  constructor
  · have hsplit : pySplit
        (mkPlan pre (mkSeg t0 d0 q0) (mkSeg t1 d1 q1) (mkSeg t2 d2 q2)) ("Module: ".data) =
        [pre, mkSeg t0 d0 q0, mkSeg t1 d1 q1, mkSeg t2 d2 q2] := by
      rw [mkPlan, pySplit_append _ _ _ (by decide) hm0,
        pySplit_append _ _ _ (by decide) hm1,
        pySplit_append _ _ _ (by decide) hm2,
        pySplit_no_occurrence _ _ hm3]
    rw [parse_modules, hplan1, hsplit]
    simp [List.filterMap_cons, hs0, hs1, hs2]
  · have hsplit : pySplit
        (mkPlan pre (mkSeg t0 d0 q0) bad (mkSeg t2 d2 q2)) ("Module: ".data) =
        [pre, mkSeg t0 d0 q0, bad, mkSeg t2 d2 q2] := by
      rw [mkPlan, pySplit_append _ _ _ (by decide) hm0,
        pySplit_append _ _ _ (by decide) hm1,
        pySplit_append _ _ _ (by decide) hmb,
        pySplit_no_occurrence _ _ hm3]
    rw [parse_modules, hplan2, hsplit]
    simp [List.filterMap_cons, hs0, hsb, hs2]

set_option maxRecDepth 100000 in
/-- C3: witness at a concrete three-module plan text, with the dropped
middle segment in the second conjunct. -/
theorem c3_witness :
    parse_modules (mkPlan ("Your plan.".data)
      (mkSeg ("Basics".data) ("Learn the basics.".data) ("graph basics".data))
      (mkSeg ("Traversal".data) ("BFS and DFS.".data) ("graph traversal".data))
      (mkSeg ("Paths".data) ("Shortest paths.".data) ("graph paths".data))) =
      [⟨"Basics".data, "Learn the basics.".data, "graph basics".data⟩,
        ⟨"Traversal".data, "BFS and DFS.".data, "graph traversal".data⟩,
        ⟨"Paths".data, "Shortest paths.".data, "graph paths".data⟩] ∧
    parse_modules (mkPlan ("Your plan.".data)
      (mkSeg ("Basics".data) ("Learn the basics.".data) ("graph basics".data))
      ("Broken\nSearch Query: oops".data)
      (mkSeg ("Paths".data) ("Shortest paths.".data) ("graph paths".data))) =
      [⟨"Basics".data, "Learn the basics.".data, "graph basics".data⟩,
        ⟨"Paths".data, "Shortest paths.".data, "graph paths".data⟩] :=
  c3_module_plan_extraction ("Your plan.".data)
    ("Basics".data) ("Learn the basics.".data) ("graph basics".data)
    ("Traversal".data) ("BFS and DFS.".data) ("graph traversal".data)
    ("Paths".data) ("Shortest paths.".data) ("graph paths".data)
    ("Broken\nSearch Query: oops".data)
    (by decide) (by decide) (by decide) (by decide) (by decide) (by decide) (by decide)
    ⟨by decide, by decide, by decide, by decide, by decide, by decide, by decide⟩
    ⟨by decide, by decide, by decide, by decide, by decide, by decide, by decide⟩
    ⟨by decide, by decide, by decide, by decide, by decide, by decide, by decide⟩
    (by decide)

/-- C5: once a plan is stored it never changes for the rest of the session:
re-entering the plan-display stage checks `'plan' not in st.session_state`
(line 231) before generating, and no other handler writes the plan — only
the explicit reset clears it. -/
theorem c5_plan_cached (s : Session) (p : Str) (e : Event)
    (hp : s.plan = some p) (hne : e ≠ .resetTopic) :
    (step s e).plan = some p := by
  cases e with
  | resetTopic => exact absurd rfl hne
  | submitTopic input qs =>
    simp only [step]
    split <;> simpa using hp
  | submitAnswers a ev =>
    simp only [step]
    split <;> simpa using hp
  | renderPlan pl =>
    simp only [step]
    split
    · rename_i hcond
      rw [hp] at hcond
      exact absurd hcond.2 (by simp)
    · exact hp
  | quizMe i q =>
    simp only [step]
    split <;> simpa using hp
  | submitQuiz i g =>
    simp only [step]
    split
    · split <;> simpa using hp
    · exact hp

/-- C5: witness — a rerun of the plan-display stage leaves the cached plan
of `planSession` unchanged. -/
theorem c5_witness :
    (step planSession (.renderPlan ("a different plan".data))).plan =
      some ("Module: T\nDescription: D\nSearch Query: Q".data) :=
  c5_plan_cached planSession ("Module: T\nDescription: D\nSearch Query: Q".data)
    (.renderPlan ("a different plan".data)) rfl (by decide)

/-- C6: counterexample.  In `planSession` module 0 carries a quiz, feedback
and the grade `(2, 3)`; re-triggering quiz-me replaces the quiz text
(lines 263-266 assign only `quiz_for_module_0`) but the prior grade and
feedback remain stored, so the re-trigger does NOT overwrite the prior
grade as the claim states. -/
theorem c6_counterexample :
    (step planSession (.quizMe 0 ("new quiz".data))).quiz 0 = some ("new quiz".data) ∧
    (step planSession (.quizMe 0 ("new quiz".data))).quiz_score 0 = some (2, 3) ∧
    (step planSession (.quizMe 0 ("new quiz".data))).quiz_feedback 0 =
      some ("old feedback".data) :=
  ⟨rfl, rfl, rfl⟩

/-- C6 (amended): re-triggering quiz-me on a module overwrites that
module's quiz text but leaves its previously recorded score and feedback in
place (they are replaced only when the new quiz is submitted); and a
module's quiz text changes only through its own quiz-me trigger or the
session reset. -/
theorem c6_quiz_overwrite (s : Session) (i : Fin 3) (q : Str) (e : Event)
    (hstage : s.stage = .plan_display) :
    ((step s (.quizMe i q)).quiz i = some q ∧
      (step s (.quizMe i q)).quiz_score i = s.quiz_score i ∧
      (step s (.quizMe i q)).quiz_feedback i = s.quiz_feedback i) ∧
    ((step s e).quiz i ≠ s.quiz i → (∃ q', e = .quizMe i q') ∨ e = .resetTopic) := by
  constructor
  · refine ⟨?_, ?_, ?_⟩
    · simp [step, hstage]
    · simp [step, hstage]
    · simp [step, hstage]
  · intro hch
    cases e with
    | resetTopic => exact .inr rfl
    | quizMe j q' =>
      by_cases hj : i = j
      · subst hj
        exact .inl ⟨q', rfl⟩
      · exfalso
        apply hch
        simp only [step]
        by_cases hs : s.stage = .plan_display
        · rw [if_pos hs]
          show (if i = j then some q' else s.quiz i) = s.quiz i
          rw [if_neg hj]
        · rw [if_neg hs]
    | submitTopic input qs =>
      exfalso
      apply hch
      simp only [step]
      split <;> rfl
    | submitAnswers a ev =>
      exfalso
      apply hch
      simp only [step]
      split <;> rfl
    | renderPlan pl =>
      exfalso
      apply hch
      simp only [step]
      split <;> rfl
    | submitQuiz j g =>
      exfalso
      apply hch
      simp only [step]
      split
      · split <;> rfl
      · rfl

/-- C6: witness for the amended theorem on `planSession`. -/
theorem c6_witness :
    ((step planSession (.quizMe 0 ("new quiz".data))).quiz 0 = some ("new quiz".data) ∧
      (step planSession (.quizMe 0 ("new quiz".data))).quiz_score 0 =
        planSession.quiz_score 0 ∧
      (step planSession (.quizMe 0 ("new quiz".data))).quiz_feedback 0 =
        planSession.quiz_feedback 0) ∧
    ((step planSession (.renderPlan ("p".data))).quiz 0 ≠ planSession.quiz 0 →
      (∃ q', (Event.renderPlan ("p".data)) = .quizMe 0 q') ∨
        (Event.renderPlan ("p".data)) = .resetTopic) :=
  c6_quiz_overwrite planSession 0 ("new quiz".data) (.renderPlan ("p".data)) rfl

/-- C8: the reset control (lines 168-172) deletes every session key and
sets the stage back to topic submission: the resulting state is exactly the
initial one — plan, per-module quizzes, feedback, scores, topic, questions
and the evaluation (from which the knowledge level is derived) are all
cleared. -/
theorem c8_reset_clears (s : Session) :
    step s .resetTopic = initialSession ∧
    (step s .resetTopic).stage = .topic_submission ∧
    (step s .resetTopic).plan = none ∧
    (step s .resetTopic).topic = none ∧
    (step s .resetTopic).questions = none ∧
    (step s .resetTopic).evaluation = none ∧
    (∀ i : Fin 3, (step s .resetTopic).quiz i = none ∧
      (step s .resetTopic).quiz_feedback i = none ∧
      (step s .resetTopic).quiz_score i = none) :=
  ⟨rfl, rfl, rfl, rfl, rfl, rfl, fun _ => ⟨rfl, rfl, rfl⟩⟩

theorem reach_score_snd {s : Session} (h : Reach s) :
    ∀ (i : Fin 3) (sc : Int × Nat), s.quiz_score i = some sc → sc.2 = 3 := by
  induction h with
  | init =>
    intro i sc hsc
    exact Option.noConfusion hsc
  | next hr e ih =>
    intro i sc hsc
    cases e with
    | resetTopic => exact Option.noConfusion hsc
    | submitTopic input qs =>
      apply ih i sc
      revert hsc
      simp only [step]
      split <;> exact id
    | submitAnswers a ev =>
      apply ih i sc
      revert hsc
      simp only [step]
      split <;> exact id
    | renderPlan pl =>
      apply ih i sc
      revert hsc
      simp only [step]
      split <;> exact id
    | quizMe j q =>
      apply ih i sc
      revert hsc
      simp only [step]
      split <;> exact id
    | submitQuiz j g =>
      revert hsc
      simp only [step]
      split
      · split
        · rename_i sc' hps
          show (if i = j then some sc' else _) = some sc → sc.2 = 3
          by_cases hj : i = j
          · rw [if_pos hj]
            intro hsc
            injection hsc with h2
            rw [← h2]
            exact parse_score_total hps
          · rw [if_neg hj]
            exact ih i sc
        · exact ih i sc
      · exact ih i sc

/-- C7: for every reachable session state, the total-score loop adds
exactly the recorded per-module `(score, total)` pairs: the first component
is the sum of the recorded scores and the second is `3 *` the number of
graded modules — a module that was never graded contributes to neither, so
the denominator is dynamic rather than a fixed 9. -/
theorem c7_aggregate_score (s : Session) (h : Reach s) :
    total_score s = (((graded_scores s).map Prod.fst).sum, 3 * graded_count s) := by
  have hsnd := reach_score_snd h
  have hfin : List.finRange 3 = [0, 1, 2] := rfl
  have ht0 : ∀ n t, s.quiz_score 0 = some (n, t) → t = 3 := fun n t hh => hsnd 0 (n, t) hh
  have ht1 : ∀ n t, s.quiz_score 1 = some (n, t) → t = 3 := fun n t hh => hsnd 1 (n, t) hh
  have ht2 : ∀ n t, s.quiz_score 2 = some (n, t) → t = 3 := fun n t hh => hsnd 2 (n, t) hh
  rcases h0 : s.quiz_score 0 with _ | ⟨n0, t0⟩ <;>
    rcases h1 : s.quiz_score 1 with _ | ⟨n1, t1⟩ <;>
    rcases h2 : s.quiz_score 2 with _ | ⟨n2, t2⟩
  all_goals try have e0 := ht0 n0 t0 h0
  all_goals try have e1 := ht1 n1 t1 h1
  all_goals try have e2 := ht2 n2 t2 h2
  all_goals
    simp [total_score, graded_scores, graded_count, hfin, h0, h1, h2, List.filter]
  all_goals omega

/-- C7: witness — a session reached by submitting a topic, submitting
assessment answers, generating a quiz for module 0 and submitting it with a
grader reply of `Score: 2/3`; the aggregate is `(2, 3)`, not out of 9. -/
theorem c7_witness :
    Reach (step (step (step (step initialSession
        (.submitTopic ("Graphs".data) ("Q?".data)))
        (.submitAnswers ("my answers".data) ("Fine.\nKnowledge Level: Beginner".data)))
        (.quizMe 0 ("quiz".data)))
        (.submitQuiz 0 ("Good.\nScore: 2/3".data))) ∧
    total_score (step (step (step (step initialSession
        (.submitTopic ("Graphs".data) ("Q?".data)))
        (.submitAnswers ("my answers".data) ("Fine.\nKnowledge Level: Beginner".data)))
        (.quizMe 0 ("quiz".data)))
        (.submitQuiz 0 ("Good.\nScore: 2/3".data))) =
      (((graded_scores (step (step (step (step initialSession
        (.submitTopic ("Graphs".data) ("Q?".data)))
        (.submitAnswers ("my answers".data) ("Fine.\nKnowledge Level: Beginner".data)))
        (.quizMe 0 ("quiz".data)))
        (.submitQuiz 0 ("Good.\nScore: 2/3".data)))).map Prod.fst).sum,
        3 * graded_count (step (step (step (step initialSession
        (.submitTopic ("Graphs".data) ("Q?".data)))
        (.submitAnswers ("my answers".data) ("Fine.\nKnowledge Level: Beginner".data)))
        (.quizMe 0 ("quiz".data)))
        (.submitQuiz 0 ("Good.\nScore: 2/3".data)))) :=
  have hr : Reach (step (step (step (step initialSession
      (.submitTopic ("Graphs".data) ("Q?".data)))
      (.submitAnswers ("my answers".data) ("Fine.\nKnowledge Level: Beginner".data)))
      (.quizMe 0 ("quiz".data)))
      (.submitQuiz 0 ("Good.\nScore: 2/3".data))) :=
    .next (.next (.next (.next .init
      (.submitTopic ("Graphs".data) ("Q?".data)))
      (.submitAnswers ("my answers".data) ("Fine.\nKnowledge Level: Beginner".data)))
      (.quizMe 0 ("quiz".data)))
      (.submitQuiz 0 ("Good.\nScore: 2/3".data))
  ⟨hr, c7_aggregate_score _ hr⟩

/-- C4: counterexample.  The program performs no local exact-match
comparison: `evaluate_quiz_answers` (lines 126-152) asks the external model
to grade and the handler stores whatever integer the reply's `Score:` line
carries (lines 296-298).  Here every question is unanswered — the
spec-modelled exact-match count (`spec_grade`) is 0 for any quiz — yet a
grader reply of `Score: 3/3` makes the session record `(3, 3)`, so the
stored score does not equal the count of exact matches. -/
theorem c4_counterexample :
    (step planSession (.submitQuiz 0 ("Well done!\nScore: 3/3".data))).quiz_score 0 =
      some (3, 3) ∧
    spec_grade
      [⟨"Q1".data, ["ax".data, "bx".data, "cx".data, "dx".data], 1⟩,
        ⟨"Q2".data, ["ax".data, "bx".data, "cx".data, "dx".data], 0⟩,
        ⟨"Q3".data, ["ax".data, "bx".data, "cx".data, "dx".data], 3⟩]
      [none, none, none] = 0 ∧
    (3 : Int) ≠ 0 :=
  ⟨rfl, rfl, by decide⟩

/-- C4 (amended): grading is delegated to the external grader model; what
the code guarantees is the storage contract of lines 291-298: on submission
of module `i`'s quiz, the grader text is stored as feedback and the score
recorded is the pair `(n, 3)` where `n` is the integer parsed from the
grader text's last line and the total is the literal 3 — every successful
parse has total 3, and unanswered selections never make the handler throw
(they are merely text sent to the grader). -/
theorem c4_score_storage (s : Session) (i : Fin 3) (g : Str) (n : Int) (t : Nat)
    (hstage : s.stage = .plan_display) (hq : s.quiz i ≠ none)
    (hp : parse_score g = .ok (n, t)) :
    (step s (.submitQuiz i g)).quiz_score i = some (n, 3) ∧ t = 3 ∧
    (step s (.submitQuiz i g)).quiz_feedback i = some g := by
  have ht : t = 3 := parse_score_total hp
  subst ht
  refine ⟨?_, rfl, ?_⟩
  · simp only [step, hp]
    rw [if_pos ⟨hstage, hq⟩]
    simp
  · simp only [step, hp]
    rw [if_pos ⟨hstage, hq⟩]
    simp

/-- C4: witness for the amended theorem at a concrete grader reply. -/
theorem c4_witness :
    parse_score ("Nice.\nScore: 2/3".data) = .ok (2, 3) ∧
    ((step planSession (.submitQuiz 0 ("Nice.\nScore: 2/3".data))).quiz_score 0 =
        some (2, 3) ∧
      (3 : Nat) = 3 ∧
      (step planSession (.submitQuiz 0 ("Nice.\nScore: 2/3".data))).quiz_feedback 0 =
        some ("Nice.\nScore: 2/3".data)) :=
  ⟨rfl, c4_score_storage planSession 0 ("Nice.\nScore: 2/3".data) 2 3 rfl
    (by decide) rfl⟩

set_option maxRecDepth 100000 in
/-- C9: counterexample.  Three well-formed modules; the resource lookup
throws only for module 1's query `qB`.  Because the whole per-module loop
runs inside the single stage-level `try` (lines 210, 306-307), module 0
renders but module 2 — whose own lookup would succeed — never renders: the
result contains only the module at index 0 and the escaped error.  Per-
module isolation as claimed does not hold. -/
theorem c9_counterexample :
    render_plan_stage
      ("Module: A\nDescription: dA\nSearch Query: qAModule: B\nDescription: dB\nSearch Query: qBModule: C\nDescription: dC\nSearch Query: qC".data)
      (fun q => if q = ("qB".data) then .error .externalError
        else .ok [("R".data, "u".data)]) =
      ([⟨0, ⟨"A".data, "dA".data, "qA".data⟩, [("R".data, "u".data)]⟩],
        some .externalError) := by
  decide

/-- C9 (amended): the per-module loop is not isolated per module: when the
resource lookup of a rendered module throws, the modules rendered before it
are kept, the loop aborts with that error, and none of the later modules
render (the exception is handled only by the stage-level handler). -/
theorem c9_render_abort (search : Str → Except PyErr (List (Str × Str)))
    (pre : List (Nat × Str)) (x : Nat × Str) (rest : List (Nat × Str))
    (L : List Rendered) (m : PyModule) (e : PyErr)
    (hpre : render_loop search pre = (L, none))
    (hm : parse_module_seg x.2 = some m)
    (he : search m.searchQuery = .error e) :
    render_loop search (pre ++ x :: rest) = (L, some e) := by
  induction pre generalizing L with
  | nil =>
    have hL : ([] : List Rendered) = L := congrArg Prod.fst hpre
    rcases x with ⟨i, seg⟩
    rw [List.nil_append]
    simp only [render_loop, hm, he]
    rw [← hL]
  | cons p pre' ih =>
    rcases p with ⟨j, s0⟩
    rcases hp0 : parse_module_seg s0 with _ | m'
    · rw [List.cons_append]
      simp only [render_loop, hp0]
      apply ih
      rw [← hpre]
      simp only [render_loop, hp0]
    · rcases hs0 : search m'.searchQuery with e' | res
      · exfalso
        have : render_loop search ((j, s0) :: pre') = ([], some e') := by
          simp only [render_loop, hp0, hs0]
        rw [hpre] at this
        exact Option.noConfusion (congrArg Prod.snd this).symm
      · rcases hout : render_loop search pre' with ⟨L', err'⟩
        have hstep : render_loop search ((j, s0) :: pre') =
            (⟨j, m', res⟩ :: L', err') := by
          simp only [render_loop, hp0, hs0, hout]
        rw [hpre] at hstep
        have hfst : L = ⟨j, m', res⟩ :: L' := congrArg Prod.fst hstep
        have hsnd : err' = none := (congrArg Prod.snd hstep).symm
        rw [hsnd] at hout
        have hrec := ih L' hout
        rw [List.cons_append]
        simp only [render_loop, hp0, hs0, hrec]
        rw [hfst]

set_option maxRecDepth 100000 in
/-- C9: witness — with the failing module in the middle, the prefix stays
rendered and the loop ends with the lookup error. -/
theorem c9_witness :
    render_loop
      (fun q => if q = ("qB".data) then .error .externalError
        else .ok [("R".data, "u".data)])
      ([(0, "A\nDescription: dA\nSearch Query: qA".data)] ++
        (1, "B\nDescription: dB\nSearch Query: qB".data) ::
          [(2, "C\nDescription: dC\nSearch Query: qC".data)]) =
      ([⟨0, ⟨"A".data, "dA".data, "qA".data⟩, [("R".data, "u".data)]⟩],
        some .externalError) :=
  c9_render_abort
    (fun q => if q = ("qB".data) then .error .externalError
      else .ok [("R".data, "u".data)])
    [(0, "A\nDescription: dA\nSearch Query: qA".data)]
    (1, "B\nDescription: dB\nSearch Query: qB".data)
    [(2, "C\nDescription: dC\nSearch Query: qC".data)]
    [⟨0, ⟨"A".data, "dA".data, "qA".data⟩, [("R".data, "u".data)]⟩]
    ⟨"B".data, "dB".data, "qB".data⟩
    .externalError
    (by decide) (by decide) (by decide)
